import Mathlib

/-!
Verification of the Laser chess engine core against its design document.

The development shallowly embeds the packed evaluation score machinery and
the evaluation constant tables of `src/eval.h` (the source ships two
instantiations of this header, embedded below as `EvalV1` and `EvalV2`),
and the transposition-table structures of `src/hash.h`.  Machine integers
are modelled as `Nat`/`Int` with explicit reduction modulo the relevant
power of two.  Bodies that exist only in translation units not shipped with
the headers (`Hash::get`, `Hash::incrementAge`) are modelled from the
design document and are marked as such in their doc comments.
-/

set_option maxHeartbeats 1000000

namespace Laser

/-! ## Machine-integer casts (two's complement) -/

/-- Cast of a mathematical integer to C `uint32_t`: reduction modulo 2^32. -/
def u32 (x : Int) : Nat := (x % 4294967296).toNat

/-- Reinterpretation of a `uint32_t` value as C `int32_t` (two's complement). -/
def i32 (n : Nat) : Int :=
  if n % 4294967296 < 2147483648 then (n % 4294967296 : Int)
  else (n % 4294967296 : Int) - 4294967296

/-- Cast of a mathematical integer to C `int16_t`: two's complement wrap
modulo 2^16 into the range [-32768, 32767].  This models the narrowing
conversion `(int16_t) _score` in the `HashData` constructor of `hash.h`. -/
def toInt16 (x : Int) : Int := (x + 32768) % 65536 - 32768

/-- Cast of a mathematical integer to C `int8_t`: two's complement wrap
modulo 2^8 into the range [-128, 127].  This models the narrowing
conversion `(int8_t) _depth` in the `HashData` constructor of `hash.h`. -/
def toInt8 (x : Int) : Int := (x + 128) % 256 - 128

/-- Left shift by 16 bits of a `uint32_t` value, wrapping modulo 2^32.
This models `((uint32_t) eg) << 16` inside the `E` macro of `eval.h`. -/
def shl16u32 (n : Nat) : Nat := (n * 65536) % 4294967296

/-! ## Packed evaluation score (`eval.h`, identical in both instantiations)

`typedef uint32_t Score;` -- eval scores are packed into an unsigned 32-bit
integer during calculations (the SWAR technique). -/

/-- Macro `E(mg, eg)` of `eval.h`:
`((Score) ((int32_t) (((uint32_t) eg) << 16) + ((int32_t) mg)))`.
The endgame half goes into the high 16 bits, the midgame half into the
low 16 bits. -/
def E (mg eg : Int) : Nat := u32 (i32 (shl16u32 (u32 eg)) + i32 (u32 mg))

/-- Function `decEvalMg` of `eval.h`:
`(int) (encodedValue & 0xFFFF) - 0x8000`.  The argument is a `uint32_t`,
modelled by reducing the `Nat` argument modulo 2^32 (a no-op for every
value the embedding produces). -/
def decEvalMg (encodedValue : Nat) : Int :=
  ((encodedValue % 4294967296) % 65536 : Nat) - 32768

/-- Function `decEvalEg` of `eval.h`:
`(int) (encodedValue >> 16) - 0x8000` on a `uint32_t` argument. -/
def decEvalEg (encodedValue : Nat) : Int :=
  ((encodedValue % 4294967296) / 65536 : Nat) - 32768

/-- Constant `EVAL_ZERO = 0x80008000` of `eval.h`: the bias point making
2^15 the zero of each 16-bit half. -/
def EVAL_ZERO : Nat := 0x80008000

/-- Addition of two `Score`s (`uint32_t` addition), wrapping modulo 2^32. -/
def addScore (a b : Nat) : Nat := (a + b) % 4294967296

/-- Accumulation of a finite sequence of `E`-packed terms into the packed
accumulator, starting from `EVAL_ZERO`, with 32-bit unsigned addition. -/
def accumulate (l : List (Int × Int)) : Nat :=
  l.foldl (fun acc p => addScore acc (E p.1 p.2)) EVAL_ZERO

/-- Sum of the midgame components of a sequence of (mg, eg) terms. -/
def sumMg (l : List (Int × Int)) : Int := (l.map Prod.fst).sum

/-- Sum of the endgame components of a sequence of (mg, eg) terms. -/
def sumEg (l : List (Int × Int)) : Int := (l.map Prod.snd).sum

/-! ## Square helpers for the piece-square tables -/

/-- Index into a 32-entry half-board piece-square table for a square
0..63 (file = sq & 7, rank = sq >> 3): each rank contributes four entries
covering files 0..3, and files 4..7 read the entry of the mirrored file.
Modelled from the spec: the evaluator's table-filling code is in a
translation unit not shipped with the headers; the spec states the tables
are symmetric across files with a 32-entry half-board representation. -/
def psqIndex (sq : Nat) : Nat :=
  4 * (sq / 8) + (if sq % 8 ≤ 3 then sq % 8 else 7 - sq % 8)

/-- Horizontal (file) mirror of a square 0..63: the rank is kept and the
file `f` becomes `7 - f`. -/
def mirrorFile (sq : Nat) : Nat := 8 * (sq / 8) + (7 - sq % 8)

/-! ## First instantiation of `eval.h` -/

namespace EvalV1

/-- Constant `MAX_SCALE_FACTOR = 32` of `eval.h` (first instantiation). -/
def MAX_SCALE_FACTOR : Int := 32

/-- Array `OPPOSITE_BISHOP_SCALING = {13, 29}` of `eval.h`
(first instantiation). -/
def OPPOSITE_BISHOP_SCALING : List Int := [13, 29]

/-- Array `PAWNLESS_SCALING = {1, 4, 8, 23}` of `eval.h`
(first instantiation). -/
def PAWNLESS_SCALING : List Int := [1, 4, 8, 23]

/-- Constant `PAWN_STORM_SHIELDING_KING = -141` of `eval.h`
(first instantiation). -/
def PAWN_STORM_SHIELDING_KING : Int := -141

/-- Array `CASTLING_RIGHTS_VALUE = {0, 30, 72}` of `eval.h`
(first instantiation). -/
def CASTLING_RIGHTS_VALUE : List Int := [0, 30, 72]

/-- Array `PASSER_FILE_BONUS` of `eval.h` (first instantiation). -/
def PASSER_FILE_BONUS : List Nat :=
  [E 18 17, E 11 14, E (-12) 1, E (-14) (-8),
   E (-14) (-8), E (-12) 1, E 11 14, E 18 17]

/-- Array `pieceSquareTable[2][6][32]` of `eval.h` (first instantiation),
as the C++ compiler parses it.  The first row of the endgame bishop table
in the source lacks its trailing comma, so its fourth initializer is the
expression `-8 - 7 = -15`, all later initializers shift down one index,
and the 32nd element is zero-initialized (31 initializers for 32 slots). -/
def pieceSquareTable : List (List (List Int)) := [
  -- Midgame
  [
  [ -- Pawns
    0,  0,  0,  0,
   21,  6, 32, 44,
    7, 12, 31, 39,
   -2,  2,  2, 18,
  -12, -4,  2, 12,
   -9, -1,  0,  2,
   -5,  6, -1,  0,
    0,  0,  0,  0],
  [ -- Knights
  -128,-40,-37,-29,
  -26,-11,  0, 15,
   -8,  7, 17, 27,
   15, 10, 26, 29,
    4,  8, 20, 24,
  -11,  5,  3, 15,
  -17,-12, -6,  4,
  -55,-16,-13,-10],
  [ -- Bishops
  -23,-22,-18,-16,
  -22,-18,-10, -8,
    9,  5,  1,  2,
    0, 16,  8, 14,
    4, 10,  6, 14,
    2, 14,  5,  6,
    6,  5, 10,  5,
  -11,  5, -5, -1],
  [ -- Rooks
   -5,  0,  0,  0,
    5, 10, 10, 10,
   -5,  0,  0,  0,
   -5,  0,  0,  0,
   -5,  0,  0,  0,
   -5,  0,  0,  0,
   -5,  0,  0,  0,
   -5,  0,  0,  0],
  [ -- Queens
  -25,-21,-15, -5,
  -16,-21, -7, -6,
   -8, -3,  0,  2,
   -5, -3, -3, -3,
   -3,  0, -3, -3,
   -6,  5, -1, -2,
  -12,  1,  3,  2,
  -16,-16,-10,  2],
  [ -- Kings
  -37,-32,-34,-45,
  -34,-28,-32,-38,
  -32,-24,-28,-30,
  -31,-25,-30,-31,
  -35,-15,-32,-32,
   -7, 21,-15,-23,
   38, 50,  6,-14,
   35, 61, 26, -9]
  ],
  -- Endgame
  [
  [ -- Pawns
    0,  0,  0,  0,
   28, 28, 30, 30,
   24, 26, 20, 20,
    8,  6,  2,  2,
   -5, -2, -2, -2,
  -12, -3,  0,  0,
  -12, -3,  2,  2,
    0,  0,  0,  0],
  [ -- Knights
  -65,-28,-19, -8,
  -15,  3,  6, 13,
    5,  9, 17, 22,
    9, 14, 22, 27,
    3, 11, 16, 21,
   -7,  3,  7, 14,
  -10,  0, -3,  6,
  -27,-11, -7,  0],
  [ -- Bishops: the unterminated first row of the source merges
    -- `-8` and `-7` into the single initializer -15, shifting the rest
    -- down one slot, and index 31 is zero-initialized.
  -12,-10, -7,-15,
   -4, -4, -2,
   -2,  2,  3,  0,
    2,  2,  0,  4,
   -3,  0,  2,  2,
   -5, -1,  5,  2,
   -8, -4, -2, -2,
  -13,-12, -4,  0,
    0],
  [ -- Rooks
    0,  0,  0,  0,
    0,  0,  0,  0,
    0,  0,  0,  0,
    0,  0,  0,  0,
    0,  0,  0,  0,
    0,  0,  0,  0,
    0,  0,  0,  0,
    0,  0,  0,  0],
  [ -- Queens
  -18, -9, -1, -1,
   -9,  5, 10, 16,
   -2, 13, 18, 22,
    0, 16, 20, 26,
    0, 16, 20, 24,
   -4,  4,  8, 10,
  -19,-14,-12, -8,
  -26,-23,-23,-18],
  [ -- Kings
  -74,-20,-17,-12,
  -13, 20, 28, 28,
    8, 32, 38, 40,
   -3, 19, 28, 30,
  -13, 10, 20, 22,
  -20, -2, 11, 16,
  -32,-12,  2,  4,
  -70,-37,-25,-20]
  ]]

/-- Modelled from the spec: the intended 32-entry endgame bishop table of
the first instantiation, i.e. the rows of `eval.h` as visually laid out,
with the missing comma after the fourth entry of the first row restored
(the spec calls the unterminated row a transcription artifact). -/
def egBishopIntended : List Int :=
  [-12,-10, -7, -8,
    -7, -4, -4, -2,
    -2,  2,  3,  0,
     2,  2,  0,  4,
    -3,  0,  2,  2,
    -5, -1,  5,  2,
    -8, -4, -2, -2,
   -13,-12, -4,  0]

/-- Piece-square-table lookup for a full-board square, through the
32-entry half-board index.  Modelled from the spec (see `psqIndex`). -/
def psq (phase piece sq : Nat) : Int :=
  ((pieceSquareTable.getD phase []).getD piece []).getD (psqIndex sq) 0

end EvalV1

/-! ## Second instantiation of `eval.h` -/

namespace EvalV2

/-- Constant `MAX_SCALE_FACTOR = 32` of `eval.h` (second instantiation). -/
def MAX_SCALE_FACTOR : Int := 32

/-- Array `OPPOSITE_BISHOP_SCALING = {13, 29}` of `eval.h`
(second instantiation). -/
def OPPOSITE_BISHOP_SCALING : List Int := [13, 29]

/-- Array `PAWNLESS_SCALING = {1, 4, 8, 23}` of `eval.h`
(second instantiation). -/
def PAWNLESS_SCALING : List Int := [1, 4, 8, 23]

/-- Constant `PAWN_STORM_SHIELDING_KING = -139` of `eval.h`
(second instantiation). -/
def PAWN_STORM_SHIELDING_KING : Int := -139

/-- Array `CASTLING_RIGHTS_VALUE = {0, 30, 70}` of `eval.h`
(second instantiation). -/
def CASTLING_RIGHTS_VALUE : List Int := [0, 30, 70]

/-- Array `PASSER_FILE_BONUS` of `eval.h` (second instantiation). -/
def PASSER_FILE_BONUS : List Nat :=
  [E 15 17, E 8 11, E (-8) 1, E (-12) (-7),
   E (-12) (-7), E (-8) 1, E 8 11, E 15 17]

/-- Array `pieceSquareTable[2][6][32]` of `eval.h` (second instantiation),
as the C++ compiler parses it.  As in the first instantiation the first
row of the endgame bishop table lacks its trailing comma, so its fourth
initializer is the expression `-4 - 8 = -12`, all later initializers shift
down one index, and the 32nd element is zero-initialized. -/
def pieceSquareTable : List (List (List Int)) := [
  -- Midgame
  [
  [ -- Pawns
    0,  0,  0,  0,
   18, 10, 28, 42,
    8, 15, 30, 35,
   -2,  5,  2, 16,
  -12, -4,  2,  9,
  -10, -1,  0,  2,
   -6,  6, -1,  0,
    0,  0,  0,  0],
  [ -- Knights
  -128,-44,-37,-32,
  -26,-16, -1, 14,
   -5,  7, 17, 32,
   12, 10, 26, 30,
    5, 10, 18, 22,
  -13,  6,  6, 16,
  -17,-10, -6,  3,
  -50,-16,-11, -8],
  [ -- Bishops
  -16,-20,-15,-15,
  -20,-15,-10, -8,
   10,  5,  1,  2,
    0, 12,  5, 15,
    5,  6,  6, 16,
    1, 10, -3,  8,
    5,  3, 10,  2,
  -10,  3, -5, -2],
  [ -- Rooks
   -5,  0,  0,  0,
    5, 10, 10, 10,
   -5,  0,  0,  0,
   -5,  0,  0,  0,
   -5,  0,  0,  0,
   -5,  0,  0,  0,
   -5,  0,  0,  0,
   -5,  0,  0,  0],
  [ -- Queens
  -25,-21,-10, -5,
  -13,-24, -9, -8,
   -8,  0,  0,  2,
   -5, -3, -3, -6,
   -3,  0, -3, -6,
   -6,  5, -1, -2,
  -10,  2,  4,  2,
  -16,-16,-10, -2],
  [ -- Kings
  -37,-32,-34,-45,
  -34,-28,-32,-38,
  -32,-24,-28,-30,
  -31,-27,-30,-31,
  -35,-20,-32,-32,
   -9, 20,-17,-23,
   35, 52,  9,-14,
   34, 59, 21,-10]
  ],
  -- Endgame
  [
  [ -- Pawns
    0,  0,  0,  0,
   28, 28, 30, 30,
   26, 26, 20, 20,
    8,  8,  2,  2,
   -5, -3, -2, -2,
  -12, -3,  0,  0,
  -12, -3,  2,  2,
    0,  0,  0,  0],
  [ -- Knights
  -65,-27,-18, -7,
  -10,  0,  6, 10,
    0,  5, 13, 18,
    4, 11, 18, 25,
    0,  9, 16, 24,
   -7,  3,  7, 17,
  -10,  0, -3,  6,
  -31,-14, -8,  0],
  [ -- Bishops: the unterminated first row of the source merges
    -- `-4` and `-8` into the single initializer -12, shifting the rest
    -- down one slot, and index 31 is zero-initialized.
  -12,-10, -7,-12,
   -7,  0,  0,
   -2,  2,  0,  1,
   -3,  2,  3,  1,
   -3,  0,  2,  2,
   -5, -1,  0,  2,
   -8, -6, -3, -2,
  -13,-12,  0, -2,
    0],
  [ -- Rooks
    0,  0,  0,  0,
    0,  0,  0,  0,
    0,  0,  0,  0,
    0,  0,  0,  0,
    0,  0,  0,  0,
    0,  0,  0,  0,
    0,  0,  0,  0,
    0,  0,  0,  0],
  [ -- Queens
  -14, -5, -1, -1,
   -6,  5, 10, 16,
   -2, 13, 18, 22,
    0, 16, 20, 26,
    0, 16, 20, 24,
   -4,  4,  8, 10,
  -19,-14,-12, -8,
  -26,-23,-23,-18],
  [ -- Kings
  -68,-18,-14, -7,
  -12, 20, 28, 28,
    7, 34, 40, 42,
   -8, 25, 34, 36,
  -13, 14, 24, 27,
  -20, -2, 10, 14,
  -26, -7,  4,  6,
  -64,-36,-20,-17]
  ]]

/-- Modelled from the spec: the intended 32-entry endgame bishop table of
the second instantiation, i.e. the rows of `eval.h` as visually laid out,
with the missing comma after the fourth entry of the first row restored
(the spec calls the unterminated row a transcription artifact). -/
def egBishopIntended : List Int :=
  [-12,-10, -7, -4,
    -8, -7,  0,  0,
    -2,  2,  0,  1,
    -3,  2,  3,  1,
    -3,  0,  2,  2,
    -5, -1,  0,  2,
    -8, -6, -3, -2,
   -13,-12,  0, -2]

/-- Piece-square-table lookup for a full-board square, through the
32-entry half-board index.  Modelled from the spec (see `psqIndex`). -/
def psq (phase piece sq : Nat) : Int :=
  ((pieceSquareTable.getD phase []).getD piece []).getD (psqIndex sq) 0

end EvalV2

/-! ## Transposition table (`hash.h`) -/

/-- Constant `PV_NODE = 0` of `hash.h`. -/
def PV_NODE : Nat := 0

/-- Constant `CUT_NODE = 1` of `hash.h`. -/
def CUT_NODE : Nat := 1

/-- Constant `ALL_NODE = 2` of `hash.h`. -/
def ALL_NODE : Nat := 2

/-- Constant `NO_NODE_INFO = 3` of `hash.h`. -/
def NO_NODE_INFO : Nat := 3

/-- Struct `HashData` of `hash.h`: search information stored per
transposition entry.  `score` is `int16_t`, `move` is the 16-bit `Move`,
`nodeType` and `age` are `uint8_t`, `depth` and `_pad` are `int8_t`. -/
structure HashData where
  score : Int
  move : Nat
  nodeType : Nat
  age : Nat
  depth : Int
  /-- Field `_pad` of the source; never written with meaningful data
  (left uninitialized by the constructor, modelled as 0). -/
  pad : Int
deriving DecidableEq, Repr

/-- Constructor `HashData(int _depth, Move _move, int _score,
uint8_t _nodeType, uint8_t _age)` of `hash.h`: assigns
`score = (int16_t) _score` and `depth = (int8_t) _depth`, narrowing both
with two's complement wrap; `move`, `nodeType`, `age` copied unchanged. -/
def HashData.make (d : Int) (m : Nat) (s : Int) (nt ag : Nat) : HashData :=
  { score := toInt16 s, move := m, nodeType := nt, age := ag,
    depth := toInt8 d, pad := 0 }

/-- Struct `HashEntry` of `hash.h`: a 64-bit Zobrist key together with the
`HashData` payload. -/
structure HashEntry where
  zobristKey : Nat
  data : HashData
deriving DecidableEq, Repr

/-- Class `HashNode` of `hash.h`: one bucket of the table, holding the two
entries `slot1` and `slot2`. -/
structure HashNode where
  slot1 : HashEntry
  slot2 : HashEntry
deriving DecidableEq, Repr

/-- List of the slots of a bucket, in declaration order. -/
def HashNode.slots (n : HashNode) : List HashEntry := [n.slot1, n.slot2]

/-- Byte size of `HashData` from the declared field types of `hash.h`:
`int16_t score` (2) + 16-bit `Move move` (2) + `uint8_t nodeType` (1) +
`uint8_t age` (1) + `int8_t depth` (1) + `int8_t _pad` (1).  The width of
`Move` (16 bits) is taken from the spec, `common.h` not being shipped. -/
def sizeofHashData : Nat := 2 + 2 + 1 + 1 + 1 + 1

/-- Byte size of `HashEntry`: `uint64_t zobristKey` (8) + `HashData` (8). -/
def sizeofHashEntry : Nat := 8 + sizeofHashData

/-- Byte size of `HashNode`: two `HashEntry` slots. -/
def sizeofHashNode : Nat := 2 * sizeofHashEntry

/-- Modelled from the spec: the body of `Hash::get` is in `hash.cpp`,
which is not shipped; `hash.h` only declares it.  Per the spec, a probe
compares both slots of the addressed bucket against the probe key by the
full 64-bit key and on a match returns a copy of that slot's data by
value, otherwise it reports a miss. -/
def Hash.get (node : HashNode) (key : Nat) : Option HashData :=
  if node.slot1.zobristKey = key then some node.slot1.data
  else if node.slot2.zobristKey = key then some node.slot2.data
  else none

/-- Modelled from the spec: the body of `Hash::incrementAge` is in
`hash.cpp`, which is not shipped.  Per the spec, each new search
increments the generation counter, a `uint8_t` field, so the increment
wraps modulo 2^8. -/
def incrementAge (a : Nat) : Nat := (a + 1) % 256

/-- Sample payload used to exercise the probe on concrete data. -/
def sampleData : HashData := HashData.make 9 77 120 1 4

/-- Second sample payload used to exercise the probe on concrete data. -/
def sampleData2 : HashData := HashData.make 5 33 (-60) 2 4

/-- Sample bucket used to exercise the probe on concrete data. -/
def sampleNode : HashNode :=
  { slot1 := { zobristKey := 101, data := sampleData },
    slot2 := { zobristKey := 202, data := sampleData2 } }

/-! ## Helper lemmas -/

theorem u32_lt (x : Int) : u32 x < 4294967296 := by
  unfold u32; omega

theorem u32_cast (x : Int) : ((u32 x : Nat) : Int) = x % 4294967296 := by
  unfold u32; omega

theorem E_lt (mg eg : Int) : E mg eg < 4294967296 := by
  unfold E; exact u32_lt _

theorem E_val (mg eg : Int) :
    ((E mg eg : Nat) : Int) = (65536 * eg + mg) % 4294967296 := by
  unfold E u32 i32 shl16u32
  split_ifs <;> omega

theorem addScore_lt (a b : Nat) : addScore a b < 4294967296 := by
  unfold addScore; omega

theorem foldl_addScore_lt (l : List (Int × Int)) (acc : Nat)
    (h : acc < 4294967296) :
    l.foldl (fun a p => addScore a (E p.1 p.2)) acc < 4294967296 := by
  induction l generalizing acc with
  | nil => simpa using h
  | cons x l ih => exact ih _ (addScore_lt _ _)

theorem foldl_addScore_spec (l : List (Int × Int)) (acc : Nat) :
    ((l.foldl (fun a p => addScore a (E p.1 p.2)) acc : Nat) : Int)
      % 4294967296
      = ((acc : Int) + 65536 * sumEg l + sumMg l) % 4294967296 := by
  induction l generalizing acc with
  | nil => simp [sumMg, sumEg]
  | cons x l ih =>
    have hx := E_val x.1 x.2
    have h1 : ((addScore acc (E x.1 x.2) : Nat) : Int)
        = ((acc : Int) + ((E x.1 x.2 : Nat) : Int)) % 4294967296 := by
      unfold addScore; omega
    calc ((List.foldl (fun a p => addScore a (E p.1 p.2))
            (addScore acc (E x.1 x.2)) l : Nat) : Int) % 4294967296
        = (((addScore acc (E x.1 x.2) : Nat) : Int)
            + 65536 * sumEg l + sumMg l) % 4294967296 := ih _
      _ = ((acc : Int) + 65536 * sumEg (x :: l) + sumMg (x :: l))
            % 4294967296 := by
          simp only [sumMg, sumEg, List.map_cons, List.sum_cons]
          omega

theorem accumulate_val (l : List (Int × Int)) :
    ((accumulate l : Nat) : Int) % 4294967296
      = (2147516416 + 65536 * sumEg l + sumMg l) % 4294967296 := by
  unfold accumulate EVAL_ZERO
  simpa using foldl_addScore_spec l 0x80008000

theorem accumulate_lt (l : List (Int × Int)) :
    accumulate l < 4294967296 := by
  unfold accumulate EVAL_ZERO
  exact foldl_addScore_lt l _ (by norm_num)

/-! ## Claim theorems -/

/-- C1.  Packed-accumulator round trip: for every pair (mg, eg) of
integers in [-32768, 32767], decoding `EVAL_ZERO + E(mg, eg)` with
`decEvalMg` and `decEvalEg` yields exactly mg and eg; and for any finite
sequence of `E`-packed terms summed into the accumulator with 32-bit
unsigned addition, the decoded halves equal the sums of the per-term mg
and eg components, provided every running half-sum stays within
[-32767, 32767] -- no cross-contamination between the 16-bit halves. -/
theorem packed_roundtrip :
    (∀ mg eg : Int, -32768 ≤ mg → mg ≤ 32767 → -32768 ≤ eg → eg ≤ 32767 →
      decEvalMg (addScore EVAL_ZERO (E mg eg)) = mg ∧
      decEvalEg (addScore EVAL_ZERO (E mg eg)) = eg) ∧
    (∀ l : List (Int × Int),
      (∀ k ≤ l.length, (sumMg (l.take k)).natAbs ≤ 32767 ∧
                        (sumEg (l.take k)).natAbs ≤ 32767) →
      decEvalMg (accumulate l) = sumMg l ∧
      decEvalEg (accumulate l) = sumEg l) := by
  constructor
  · intro mg eg h1 h2 h3 h4
    have hE := E_val mg eg
    have hElt := E_lt mg eg
    unfold decEvalMg decEvalEg addScore EVAL_ZERO
    constructor <;> omega
  · intro l hl
    have hacc := accumulate_val l
    have hlt := accumulate_lt l
    have hfin := hl l.length le_rfl
    rw [List.take_length] at hfin
    obtain ⟨hmg, heg⟩ := hfin
    unfold decEvalMg decEvalEg
    constructor <;> omega

/-- Witness for C1 at concrete inputs: a single packed term and a
two-term accumulation, both decoded exactly. -/
theorem packed_roundtrip_witness :
    decEvalMg (addScore EVAL_ZERO (E 7 (-3))) = 7 ∧
    decEvalEg (accumulate [(3, -5), (-7, 10)]) = 5 := by
  refine ⟨(packed_roundtrip.1 7 (-3) (by norm_num) (by norm_num)
            (by norm_num) (by norm_num)).1, ?_⟩
  have h := (packed_roundtrip.2 [(3, -5), (-7, 10)] (by decide)).2
  simpa [sumEg] using h

/-- C2 counterexample.  The claim places the midgame score in the high
half: at (mg, eg) = (1, 2) the high 16-bit half of
`EVAL_ZERO + E(1, 2)` is 32770 = 2 + 2^15 (the endgame score), not
32769 = 1 + 2^15 as the claim requires. -/
theorem packed_halves_cex :
    addScore EVAL_ZERO (E 1 2) / 65536 = 32770 ∧
    addScore EVAL_ZERO (E 1 2) / 65536 ≠ 1 + 32768 := by decide

/-- C2 as amended.  The packed accumulator holds the midgame score in the
LOW 16-bit half and the endgame score in the HIGH 16-bit half, each biased
by 2^15: for every in-range (mg, eg), the high half of
`EVAL_ZERO + E(mg, eg)` encodes eg + 2^15 and the low half mg + 2^15. -/
theorem packed_halves_low_mg_high_eg :
    ∀ mg eg : Int, -32768 ≤ mg → mg ≤ 32767 → -32768 ≤ eg → eg ≤ 32767 →
      (addScore EVAL_ZERO (E mg eg) / 65536 : Int) = eg + 32768 ∧
      (addScore EVAL_ZERO (E mg eg) % 65536 : Int) = mg + 32768 := by
  intro mg eg h1 h2 h3 h4
  have hE := E_val mg eg
  have hlt := E_lt mg eg
  unfold addScore EVAL_ZERO
  constructor <;> omega

/-- Witness for the amended C2 at (mg, eg) = (1, 2). -/
theorem packed_halves_low_mg_high_eg_witness :
    (addScore EVAL_ZERO (E 1 2) / 65536 : Int) = 2 + 32768 ∧
    (addScore EVAL_ZERO (E 1 2) % 65536 : Int) = 1 + 32768 :=
  packed_halves_low_mg_high_eg 1 2 (by norm_num) (by norm_num)
    (by norm_num) (by norm_num)

/-- C3 counterexample.  The `HashData` constructor narrows the score with
`(int16_t) _score`, which wraps: at s = 32768 the stored score is -32768,
whereas clamping (`max (-32768) (min 32767 s)`) would store 32767. -/
theorem hashdata_score_clamp_cex :
    (HashData.make 0 0 32768 0 0).score = -32768 ∧
    max (-32768 : Int) (min 32767 32768) = 32767 ∧
    (HashData.make 0 0 32768 0 0).score ≠
      max (-32768 : Int) (min 32767 32768) := by decide

/-- C3 as amended.  The stored 16-bit score field equals the argument
reduced modulo 2^16 into [-32768, 32767] (two's complement wrap): it is
congruent to the argument modulo 2^16, always lies in the signed 16-bit
range, and equals the argument exactly when the argument is in range;
out-of-range scores wrap rather than saturate. -/
theorem hashdata_score_wraps :
    ∀ (d : Int) (m : Nat) (s : Int) (nt ag : Nat),
      (-32768 ≤ (HashData.make d m s nt ag).score ∧
        (HashData.make d m s nt ag).score ≤ 32767) ∧
      ((HashData.make d m s nt ag).score - s) % 65536 = 0 ∧
      (-32768 ≤ s → s ≤ 32767 → (HashData.make d m s nt ag).score = s) := by
  intro d m s nt ag
  have h : (HashData.make d m s nt ag).score = toInt16 s := rfl
  rw [h]; unfold toInt16
  refine ⟨⟨by omega, by omega⟩, by omega, by intro h1 h2; omega⟩

/-- Witness for the amended C3: an in-range score is stored unchanged. -/
theorem hashdata_score_wraps_witness :
    (HashData.make 3 4 120 5 6).score = 120 :=
  (hashdata_score_wraps 3 4 120 5 6).2.2 (by norm_num) (by norm_num)

/-- C4.  A transposition entry occupies exactly 16 bytes: a 64-bit key
(8 bytes) plus the 8-byte `HashData` payload of a 16-bit score, a 16-bit
move, an 8-bit node kind with exactly the four distinct values PV, CUT,
ALL, NONE, an 8-bit age, an 8-bit depth and 8 bits of padding; and every
bucket (`HashNode`) contains exactly two entries. -/
theorem tt_entry_layout :
    sizeofHashEntry = 16 ∧ sizeofHashData = 8 ∧ sizeofHashNode = 32 ∧
    [PV_NODE, CUT_NODE, ALL_NODE, NO_NODE_INFO] = [0, 1, 2, 3] ∧
    [PV_NODE, CUT_NODE, ALL_NODE, NO_NODE_INFO].Nodup ∧
    PV_NODE < 256 ∧ CUT_NODE < 256 ∧ ALL_NODE < 256 ∧ NO_NODE_INFO < 256 ∧
    ∀ n : HashNode, n.slots.length = 2 := by
  exact ⟨rfl, rfl, rfl, rfl, by decide, by decide, by decide, by decide,
    by decide, fun n => rfl⟩

/-- C5.  A probe compares both slots of the addressed bucket against the
probe key by the full key; if a slot's stored key equals the probe key the
probe returns (a copy of) that slot's data, and otherwise it reports a
miss. -/
theorem hash_probe_both_slots :
    ∀ (node : HashNode) (key : Nat),
      (node.slot1.zobristKey = key ∨ node.slot2.zobristKey = key →
        ∃ d, Hash.get node key = some d ∧
          ((node.slot1.zobristKey = key ∧ d = node.slot1.data) ∨
           (node.slot2.zobristKey = key ∧ d = node.slot2.data))) ∧
      (node.slot1.zobristKey ≠ key ∧ node.slot2.zobristKey ≠ key →
        Hash.get node key = none) := by
  intro node key
  constructor
  · intro h
    by_cases h1 : node.slot1.zobristKey = key
    · refine ⟨node.slot1.data, ?_, Or.inl ⟨h1, rfl⟩⟩
      unfold Hash.get; rw [if_pos h1]
    · have h2 := h.resolve_left h1
      refine ⟨node.slot2.data, ?_, Or.inr ⟨h2, rfl⟩⟩
      unfold Hash.get; rw [if_neg h1, if_pos h2]
  · rintro ⟨h1, h2⟩
    unfold Hash.get; rw [if_neg h1, if_neg h2]

/-- Witness for C5 on a concrete bucket: a hit in slot 1 and a miss. -/
theorem hash_probe_both_slots_witness :
    (∃ d, Hash.get sampleNode 101 = some d ∧
      ((sampleNode.slot1.zobristKey = 101 ∧ d = sampleNode.slot1.data) ∨
       (sampleNode.slot2.zobristKey = 101 ∧ d = sampleNode.slot2.data))) ∧
    Hash.get sampleNode 999 = none :=
  ⟨(hash_probe_both_slots sampleNode 101).1 (Or.inl (by decide)),
   (hash_probe_both_slots sampleNode 999).2 (by decide)⟩

/-- Bounding the truncating division used for endgame scaling: for any
score s and factor 0 ≤ f ≤ 32, |(s * f) tdiv 32| ≤ |s|. -/
theorem natAbs_mul_tdiv_le (s f : Int) (h0 : 0 ≤ f) (h32 : f ≤ 32) :
    ((s * f).tdiv 32).natAbs ≤ s.natAbs := by
  rw [Int.natAbs_tdiv, Int.natAbs_mul]
  have hf : f.natAbs ≤ 32 := by omega
  show s.natAbs * f.natAbs / 32 ≤ s.natAbs
  calc s.natAbs * f.natAbs / 32
      ≤ s.natAbs * 32 / 32 :=
        Nat.div_le_div_right (Nat.mul_le_mul_left _ hf)
    _ = s.natAbs := by omega

/-- C6.  Every drawish-endgame scale factor -- each element of
`OPPOSITE_BISHOP_SCALING` and of `PAWNLESS_SCALING`, in both
instantiations -- is at most `MAX_SCALE_FACTOR` (32), so scaling a score
by factor / MAX_SCALE_FACTOR (C truncating division) never increases its
absolute value. -/
theorem scaling_factors_bounded :
    (∀ f ∈ EvalV1.OPPOSITE_BISHOP_SCALING ++ EvalV1.PAWNLESS_SCALING,
      f ≤ EvalV1.MAX_SCALE_FACTOR ∧
      ∀ s : Int, ((s * f).tdiv EvalV1.MAX_SCALE_FACTOR).natAbs ≤
        s.natAbs) ∧
    (∀ f ∈ EvalV2.OPPOSITE_BISHOP_SCALING ++ EvalV2.PAWNLESS_SCALING,
      f ≤ EvalV2.MAX_SCALE_FACTOR ∧
      ∀ s : Int, ((s * f).tdiv EvalV2.MAX_SCALE_FACTOR).natAbs ≤
        s.natAbs) := by
  constructor
  · intro f hf
    have hrange : 0 ≤ f ∧ f ≤ 32 := by
      simp only [EvalV1.OPPOSITE_BISHOP_SCALING, EvalV1.PAWNLESS_SCALING,
        List.mem_append, List.mem_cons, List.not_mem_nil, or_false] at hf
      omega
    exact ⟨by simp only [EvalV1.MAX_SCALE_FACTOR]; omega,
      fun s => natAbs_mul_tdiv_le s f hrange.1 hrange.2⟩
  · intro f hf
    have hrange : 0 ≤ f ∧ f ≤ 32 := by
      simp only [EvalV2.OPPOSITE_BISHOP_SCALING, EvalV2.PAWNLESS_SCALING,
        List.mem_append, List.mem_cons, List.not_mem_nil, or_false] at hf
      omega
    exact ⟨by simp only [EvalV2.MAX_SCALE_FACTOR]; omega,
      fun s => natAbs_mul_tdiv_le s f hrange.1 hrange.2⟩

/-- Witness for C6 at the factor 13 and the score -100. -/
theorem scaling_factors_bounded_witness :
    13 ≤ EvalV1.MAX_SCALE_FACTOR ∧
    (((-100 : Int) * 13).tdiv EvalV1.MAX_SCALE_FACTOR).natAbs ≤
      (-100 : Int).natAbs :=
  ⟨(scaling_factors_bounded.1 13 (by decide)).1,
   (scaling_factors_bounded.1 13 (by decide)).2 (-100)⟩

/-- Invariance of the half-board index under the horizontal mirror. -/
theorem psqIndex_mirror :
    ∀ sq : Fin 64, psqIndex (mirrorFile sq.val) = psqIndex sq.val := by
  decide

/-- C7.  The table-driven terms are symmetric across files: for every
phase, piece and square the piece-square table assigns the same value to
a square and to its horizontal mirror (forced by the 32-entry half-board
representation), and `PASSER_FILE_BONUS[f] = PASSER_FILE_BONUS[7 - f]`
for every file f, in both instantiations. -/
theorem pst_file_symmetric :
    (∀ phase piece : Nat, ∀ sq : Fin 64,
      EvalV1.psq phase piece sq.val =
        EvalV1.psq phase piece (mirrorFile sq.val) ∧
      EvalV2.psq phase piece sq.val =
        EvalV2.psq phase piece (mirrorFile sq.val)) ∧
    (∀ f : Fin 8,
      EvalV1.PASSER_FILE_BONUS.getD f.val 0 =
        EvalV1.PASSER_FILE_BONUS.getD (7 - f.val) 0 ∧
      EvalV2.PASSER_FILE_BONUS.getD f.val 0 =
        EvalV2.PASSER_FILE_BONUS.getD (7 - f.val) 0) := by
  constructor
  · intro phase piece sq
    constructor
    · unfold EvalV1.psq; rw [psqIndex_mirror sq]
    · unfold EvalV2.psq; rw [psqIndex_mirror sq]
  · decide

/-- C8 counterexample.  The claim asserts the endgame scaling factors are
not all equal between the two instantiations; in fact all three are
identical in the shipped sources. -/
theorem scaling_factors_equal_cex :
    EvalV1.MAX_SCALE_FACTOR = EvalV2.MAX_SCALE_FACTOR ∧
    EvalV1.OPPOSITE_BISHOP_SCALING = EvalV2.OPPOSITE_BISHOP_SCALING ∧
    EvalV1.PAWNLESS_SCALING = EvalV2.PAWNLESS_SCALING := by decide

/-- C8 as amended.  The endgame scaling factors `MAX_SCALE_FACTOR`,
`OPPOSITE_BISHOP_SCALING` and `PAWNLESS_SCALING` are all equal between
the two instantiations of `eval.h`; the asymmetry between instantiations
lies in other hand-tuned constants, e.g. the king-safety values
`PAWN_STORM_SHIELDING_KING` (-141 vs -139) and `CASTLING_RIGHTS_VALUE`
({0,30,72} vs {0,30,70}) differ. -/
theorem scaling_factors_equal_across_versions :
    EvalV1.MAX_SCALE_FACTOR = EvalV2.MAX_SCALE_FACTOR ∧
    EvalV1.OPPOSITE_BISHOP_SCALING = EvalV2.OPPOSITE_BISHOP_SCALING ∧
    EvalV1.PAWNLESS_SCALING = EvalV2.PAWNLESS_SCALING ∧
    EvalV1.PAWN_STORM_SHIELDING_KING ≠ EvalV2.PAWN_STORM_SHIELDING_KING ∧
    EvalV1.CASTLING_RIGHTS_VALUE ≠ EvalV2.CASTLING_RIGHTS_VALUE := by
  decide

/-- C9.  In both instantiations the first row of the endgame bishop
piece-square table is unterminated, so the compiled fourth initializer is
the arithmetic combination of two intended entries (-8 - 7 = -15 in the
first instantiation, -4 - 8 = -12 in the second), every subsequent
intended entry sits one index lower than intended, the final element
(index 31) is zero-initialized, and the compiled table differs from the
intended 32-entry table. -/
theorem eg_bishop_row_shift :
    ((EvalV1.pieceSquareTable.getD 1 []).getD 2 []).getD 3 0 = -8 - 7 ∧
    (∀ i : Fin 27,
      ((EvalV1.pieceSquareTable.getD 1 []).getD 2 []).getD (4 + i.val) 0 =
        EvalV1.egBishopIntended.getD (5 + i.val) 0) ∧
    ((EvalV1.pieceSquareTable.getD 1 []).getD 2 []).getD 31 0 = 0 ∧
    ((EvalV1.pieceSquareTable.getD 1 []).getD 2 []).length = 32 ∧
    (EvalV1.pieceSquareTable.getD 1 []).getD 2 [] ≠
      EvalV1.egBishopIntended ∧
    ((EvalV2.pieceSquareTable.getD 1 []).getD 2 []).getD 3 0 = -4 - 8 ∧
    (∀ i : Fin 27,
      ((EvalV2.pieceSquareTable.getD 1 []).getD 2 []).getD (4 + i.val) 0 =
        EvalV2.egBishopIntended.getD (5 + i.val) 0) ∧
    ((EvalV2.pieceSquareTable.getD 1 []).getD 2 []).getD 31 0 = 0 ∧
    ((EvalV2.pieceSquareTable.getD 1 []).getD 2 []).length = 32 ∧
    (EvalV2.pieceSquareTable.getD 1 []).getD 2 [] ≠
      EvalV2.egBishopIntended := by decide

/-- Iterating the generation increment n times from a value < 256. -/
theorem incrementAge_iterate (n a : Nat) (h : a < 256) :
    incrementAge^[n] a = (a + n) % 256 := by
  induction n generalizing a with
  | zero => simpa using (Nat.mod_eq_of_lt h).symm
  | succ n ih =>
    rw [Function.iterate_succ_apply,
      show incrementAge a = (a + 1) % 256 from rfl,
      ih _ (Nat.mod_lt _ (by norm_num))]
    omega

/-- C10.  The depth passed to the `HashData` constructor is narrowed to
`int8_t` (wrapping modulo 2^8, e.g. depth 200 is stored as -56), the
`uint8_t` generation advanced by `incrementAge` wraps modulo 256, and
after 256 increments the generation value repeats exactly, so an entry
written 256 generations earlier is indistinguishable by age from a
current-generation entry. -/
theorem age_depth_wrap :
    (∀ (d : Int) (m : Nat) (s : Int) (nt ag : Nat),
      -128 ≤ (HashData.make d m s nt ag).depth ∧
      (HashData.make d m s nt ag).depth ≤ 127 ∧
      ((HashData.make d m s nt ag).depth - d) % 256 = 0) ∧
    (HashData.make 200 0 0 0 0).depth = -56 ∧
    (∀ a : Nat, a < 256 → incrementAge^[256] a = a) := by
  refine ⟨?_, by decide, ?_⟩
  · intro d m s nt ag
    have h : (HashData.make d m s nt ag).depth = toInt8 d := rfl
    rw [h]; unfold toInt8
    refine ⟨by omega, by omega, by omega⟩
  · intro a ha
    rw [incrementAge_iterate 256 a ha]
    omega

/-- Witness for C10: 256 increments return age 7 to itself, and the
constructor's wrap at a concrete in-range depth. -/
theorem age_depth_wrap_witness :
    incrementAge^[256] 7 = 7 ∧ -128 ≤ (HashData.make 200 0 0 0 0).depth :=
  ⟨age_depth_wrap.2.2 7 (by norm_num), (age_depth_wrap.1 200 0 0 0 0).1⟩
